import Mathlib

/-!
ESP32-KBM-Bridge: event translation and mode arbitration.

A shallow embedding of `src/ESP32-KBM-Bridge.c`.  The global variables of the
sketch (`currentMode`, `modifierKeys`, `toggleKeyPressed`) and the levels of the
two indicator pins form an explicit `State`; every callback is a function from
a state to the new state together with the list of backend calls it issued, in
program order.  Serial logging is not part of the model.

Machine integers: `int key` is an `Int`; `uint8_t` values are `Nat` with an
explicit `% 256` where a store narrows; `int8_t` values are `Int`.
-/

namespace KBMBridge

/-! ## Data model -/

/-- Source line 29: `enum OperationMode { MODE_USB, MODE_BLE }`. -/
inductive OperationMode where
  | MODE_USB
  | MODE_BLE
  deriving DecidableEq

/-- The three button constants handed to `bleMouse.press` and `bleMouse.release`
(source lines 161 to 163); their numeric values live in the BLE library. -/
inductive MouseButton where
  | MOUSE_LEFT
  | MOUSE_RIGHT
  | MOUSE_MIDDLE
  deriving DecidableEq

/-- One call to a downstream backend, with the argument values as received by
the callee: `usb_hid.keyboardReport(id, modifier, keycode[6])`,
`usb_hid.mouseReport(id, buttons, x, y, wheel)` with signed 8-bit motion,
`bleKeyboard.press(k)` and `bleKeyboard.release(k)` with an 8-bit key,
`bleMouse.move(x, y)` with signed 8-bit motion, and `bleMouse.press(b)`,
`bleMouse.release(b)`. -/
inductive Call where
  | usbKeyboardReport (reportId modifier : Nat) (keycode : List Nat)
  | usbMouseReport (reportId buttons : Nat) (x y wheel : Int)
  | bleKeyboardPress (k : Nat)
  | bleKeyboardRelease (k : Nat)
  | bleMouseMove (x y : Int)
  | bleMousePress (b : MouseButton)
  | bleMouseRelease (b : MouseButton)
  deriving DecidableEq

/-- The call goes to the USB device stack (`usb_hid`). -/
def Call.isUsb : Call → Bool
  | .usbKeyboardReport _ _ _ => true
  | .usbMouseReport _ _ _ _ _ => true
  | _ => false

/-- The call goes to the BLE stack (`bleKeyboard` or `bleMouse`). -/
def Call.isBle : Call → Bool
  | .bleKeyboardPress _ => true
  | .bleKeyboardRelease _ => true
  | .bleMouseMove _ _ => true
  | .bleMousePress _ => true
  | .bleMouseRelease _ => true
  | _ => false

/-- The two key constants of source lines 21 and 22.  `KEY_LEFT_ALT` and
`KEY_ESC` are defined by a library header that is not part of the sketch, so
their `int` values are parameters of the model. -/
structure KeyConfig where
  MOD_KEY : Int
  TOGGLE_KEY : Int

/-- Source line 17. -/
def USB_MODE_LED : Nat := 2

/-- Source line 18. -/
def BLE_MODE_LED : Nat := 3

/-- Source line 25. -/
def HID_KEYBOARD_REPORT_ID : Nat := 1

/-- Source line 26. -/
def HID_MOUSE_REPORT_ID : Nat := 2

/-- The mutable globals of source lines 30 to 32, plus the output level of the
two indicator pins (`true` is `HIGH`). -/
structure State where
  currentMode : OperationMode
  modifierKeys : Nat
  toggleKeyPressed : Bool
  usbLed : Bool
  bleLed : Bool
  deriving DecidableEq

/-- Narrowing of an `int` to `uint8_t`, as in `keycode[0] = key` and in passing
`key` to the 8-bit parameter of `bleKeyboard.press`. -/
def toU8 (k : Int) : Nat := (k % 256).toNat

/-- Conversion of a `uint8_t` to `int8_t`, as in passing `x` to the signed
motion parameters of `mouseReport` and `move`. -/
def toI8 (n : Nat) : Int :=
  if n % 256 < 128 then ((n % 256 : Nat) : Int) else ((n % 256 : Nat) : Int) - 256

/-! ## Indicator outputs -/

/-- Effect of `digitalWrite(pin, level)` on the two indicator pins. -/
def digitalWrite (pin : Nat) (level : Bool) (s : State) : State :=
  if pin = USB_MODE_LED then { s with usbLed := level }
  else if pin = BLE_MODE_LED then { s with bleLed := level }
  else s

/-- Source lines 97 to 100: two `digitalWrite` calls, USB indicator first. -/
def updateLEDs (s : State) : State :=
  let s1 := digitalWrite USB_MODE_LED (decide (s.currentMode = .MODE_USB)) s
  digitalWrite BLE_MODE_LED (decide (s1.currentMode = .MODE_BLE)) s1

/-- Source lines 103 to 108. -/
def toggleMode (s : State) : State :=
  updateLEDs
    { s with currentMode :=
        if s.currentMode = .MODE_USB then .MODE_BLE else .MODE_USB }

/-- The globals as initialised at lines 30 to 32, before `setup` runs; the
indicator pins are still low. -/
def initialGlobals : State :=
  { currentMode := .MODE_USB, modifierKeys := 0, toggleKeyPressed := false,
    usbLed := false, bleLed := false }

/-- Source lines 58 to 86, restricted to the state of the model: the only
statement of `setup` that touches it is `updateLEDs()`. -/
def setup (s : State) : State := updateLEDs s

/-- State in which the first callback can arrive. -/
def boot : State := setup initialGlobals

/-! ## Callbacks -/

/-- Source lines 122 to 128: routing of a key-down by the current mode. -/
def routeKeyPress (key : Int) (s : State) : State × List Call :=
  if s.currentMode = .MODE_USB then
    (s, [.usbKeyboardReport HID_KEYBOARD_REPORT_ID s.modifierKeys
          [toU8 key, 0, 0, 0, 0, 0]])
  else
    (s, [.bleKeyboardPress (toU8 key)])

/-- Source lines 111 to 129. -/
def onKeyPress (c : KeyConfig) (key : Int) (s : State) : State × List Call :=
  if key = c.MOD_KEY then
    routeKeyPress key { s with modifierKeys := (s.modifierKeys ||| 1) % 256 }
  else if key = c.TOGGLE_KEY ∧ (s.modifierKeys &&& 1) ≠ 0 then
    (toggleMode { s with toggleKeyPressed := true }, [])
  else
    routeKeyPress key s

/-- Source lines 139 to 144: routing of a key-up by the current mode. -/
def routeKeyRelease (key : Int) (s : State) : State × List Call :=
  if s.currentMode = .MODE_USB then
    (s, [.usbKeyboardReport HID_KEYBOARD_REPORT_ID s.modifierKeys
          [0, 0, 0, 0, 0, 0]])
  else
    (s, [.bleKeyboardRelease (toU8 key)])

/-- Source lines 131 to 145.  `~(1 << 0)` narrowed to the 8 bits of
`modifierKeys` is the mask `0xFE`. -/
def onKeyRelease (c : KeyConfig) (key : Int) (s : State) : State × List Call :=
  if key = c.MOD_KEY then
    routeKeyRelease key { s with modifierKeys := s.modifierKeys &&& 254 }
  else if key = c.TOGGLE_KEY then
    routeKeyRelease key { s with toggleKeyPressed := false }
  else
    routeKeyRelease key s

/-- Source lines 148 to 154; `x` and `y` are `uint8_t`. -/
def onMouseMove (x y : Nat) (s : State) : State × List Call :=
  if s.currentMode = .MODE_USB then
    (s, [.usbMouseReport HID_MOUSE_REPORT_ID 0 (toI8 x) (toI8 y) 0])
  else
    (s, [.bleMouseMove (toI8 x) (toI8 y)])

/-- Source lines 156 to 165; `buttons` is `uint8_t`. -/
def onMouseButtons (buttons : Nat) (s : State) : State × List Call :=
  if s.currentMode = .MODE_USB then
    (s, [.usbMouseReport HID_MOUSE_REPORT_ID buttons 0 0 0])
  else
    (s,
      [ if (buttons &&& 1) ≠ 0 then .bleMousePress .MOUSE_LEFT
        else .bleMouseRelease .MOUSE_LEFT,
        if (buttons &&& 2) ≠ 0 then .bleMousePress .MOUSE_RIGHT
        else .bleMouseRelease .MOUSE_RIGHT,
        if (buttons &&& 4) ≠ 0 then .bleMousePress .MOUSE_MIDDLE
        else .bleMouseRelease .MOUSE_MIDDLE ])

/-- One upstream callback, as registered at source lines 69 to 72. -/
inductive Event where
  | keyPress (key : Int)
  | keyRelease (key : Int)
  | mouseMove (x y : Nat)
  | mouseButtons (buttons : Nat)
  deriving DecidableEq

/-- Delivery of one callback. -/
def dispatch (c : KeyConfig) (e : Event) (s : State) : State × List Call :=
  match e with
  | .keyPress key => onKeyPress c key s
  | .keyRelease key => onKeyRelease c key s
  | .mouseMove x y => onMouseMove x y s
  | .mouseButtons buttons => onMouseButtons buttons s

/-- Delivery of a finite sequence of callbacks, oldest first; the calls of all
callbacks are collected in order. -/
def run (c : KeyConfig) : List Event → State → State × List Call
  | [], s => (s, [])
  | e :: es, s =>
    let r := dispatch c e s
    let r2 := run c es r.1
    (r2.1, r.2 ++ r2.2)

/-- Sample key constants: the values `KEY_LEFT_ALT = 0x82` and `KEY_ESC = 0xB1`
of the BLE keyboard library. -/
def sampleKeys : KeyConfig := { MOD_KEY := 0x82, TOGGLE_KEY := 0xB1 }

/-- A sample state: USB mode, modifier held. -/
def usbModHeld : State :=
  { currentMode := .MODE_USB, modifierKeys := 1, toggleKeyPressed := false,
    usbLed := true, bleLed := false }

/-- A sample state: BLE mode, nothing held. -/
def bleIdle : State :=
  { currentMode := .MODE_BLE, modifierKeys := 0, toggleKeyPressed := false,
    usbLed := false, bleLed := true }

/-- A callback output that touches exactly one backend, the one selected by
mode `m`: at least one call, and every call is a USB call when `m` is
`MODE_USB`, a BLE call when `m` is `MODE_BLE`. -/
def routedOnlyTo (m : OperationMode) (out : List Call) : Prop :=
  out ≠ [] ∧
  ∀ call ∈ out,
    if m = .MODE_USB then call.isUsb = true ∧ call.isBle = false
    else call.isBle = true ∧ call.isUsb = false

instance routedOnlyTo_decidable (m : OperationMode) (out : List Call) :
    Decidable (routedOnlyTo m out) := by
  unfold routedOnlyTo; infer_instance

/-- The call the BLE branch of `onMouseButtons` issues for button `b` when the
bit of `b` in the mask is `bit`. -/
def buttonCall (bit : Bool) (b : MouseButton) : Call :=
  if bit then .bleMousePress b else .bleMouseRelease b

/-- Modelled from the spec: the button state of the BLE host, which lives
outside the sketch.  It is the set of held buttons; `press(b)` inserts `b`,
`release(b)` removes `b`, and every other call leaves it alone. -/
def applyMouseCall (held : Finset MouseButton) : Call → Finset MouseButton
  | .bleMousePress b => insert b held
  | .bleMouseRelease b => held.erase b
  | _ => held

/-- The host button state after a sequence of calls, oldest first. -/
def applyMouseCalls (held : Finset MouseButton) (calls : List Call) :
    Finset MouseButton :=
  calls.foldl applyMouseCall held

/-- The level a button mask asks for: a button is held exactly when its bit
(0 for left, 1 for right, 2 for middle) is set. -/
def maskButtons (mask : Nat) : Finset MouseButton :=
  (if mask.testBit 0 then {MouseButton.MOUSE_LEFT} else ∅) ∪
  (if mask.testBit 1 then {MouseButton.MOUSE_RIGHT} else ∅) ∪
  (if mask.testBit 2 then {MouseButton.MOUSE_MIDDLE} else ∅)

/-- Delivery of a signed 8-bit motion to `onMouseMove`, whose parameters are
`uint8_t`: each component is narrowed to 8 unsigned bits at the call. -/
def deliverMouseMove (dx dy : Int) (s : State) : State × List Call :=
  onMouseMove (toU8 dx) (toU8 dy) s

/-- The two indicator pins show the mode: the USB indicator is high exactly in
USB mode and the BLE indicator is high exactly in BLE mode. -/
def ledsShowMode (s : State) : Prop :=
  (s.usbLed = true ↔ s.currentMode = .MODE_USB) ∧
  (s.bleLed = true ↔ s.currentMode = .MODE_BLE)

instance ledsShowMode_decidable (s : State) : Decidable (ledsShowMode s) := by
  unfold ledsShowMode; infer_instance

/-- Scenario A of the specification: modifier down, toggle key down, toggle key
up, modifier up. -/
def scenarioA (c : KeyConfig) : List Event :=
  [.keyPress c.MOD_KEY, .keyPress c.TOGGLE_KEY, .keyRelease c.TOGGLE_KEY,
   .keyRelease c.MOD_KEY]

/-- The event is a key-down or a key-up of `MOD_KEY`. -/
def isModEvent (c : KeyConfig) : Event → Bool
  | .keyPress key => decide (key = c.MOD_KEY)
  | .keyRelease key => decide (key = c.MOD_KEY)
  | _ => false

/-- Source lines 97 to 100 statement by statement: the state after the first
`digitalWrite` (USB indicator) and the state after the second (BLE
indicator). -/
def updateLEDsSteps (s : State) : List State :=
  let s1 := digitalWrite USB_MODE_LED (decide (s.currentMode = .MODE_USB)) s
  let s2 := digitalWrite BLE_MODE_LED (decide (s1.currentMode = .MODE_BLE)) s1
  [s1, s2]

/-- Source lines 103 to 105 statement by statement: the state after the
assignment to `currentMode`, followed by the states of `updateLEDs`. -/
def toggleModeSteps (s : State) : List State :=
  let s0 : State :=
    { s with currentMode :=
        if s.currentMode = .MODE_USB then .MODE_BLE else .MODE_USB }
  s0 :: updateLEDsSteps s0

/-- The levels of the two indicator pins, USB indicator first. -/
def ledLevels (s : State) : Bool × Bool := (s.usbLed, s.bleLed)

/-- The chord with the modifier released first: modifier down, toggle key
down, modifier up, toggle key up. -/
def chordModifierUpFirst (c : KeyConfig) : List Event :=
  [.keyPress c.MOD_KEY, .keyPress c.TOGGLE_KEY, .keyRelease c.MOD_KEY,
   .keyRelease c.TOGGLE_KEY]

/-- The event is a key-down or a key-up of `TOGGLE_KEY`. -/
def isToggleEvent (c : KeyConfig) : Event → Bool
  | .keyPress key => decide (key = c.TOGGLE_KEY)
  | .keyRelease key => decide (key = c.TOGGLE_KEY)
  | _ => false

/-! ## Shared lemmas -/

theorem updateLEDs_currentMode (s : State) :
    (updateLEDs s).currentMode = s.currentMode := by
  simp [updateLEDs, digitalWrite, USB_MODE_LED, BLE_MODE_LED]

theorem updateLEDs_modifierKeys (s : State) :
    (updateLEDs s).modifierKeys = s.modifierKeys := by
  simp [updateLEDs, digitalWrite, USB_MODE_LED, BLE_MODE_LED]

theorem routeKeyPress_state (key : Int) (s : State) :
    (routeKeyPress key s).1 = s := by
  unfold routeKeyPress; split <;> rfl

theorem routeKeyRelease_state (key : Int) (s : State) :
    (routeKeyRelease key s).1 = s := by
  unfold routeKeyRelease; split <;> rfl

theorem onKeyRelease_currentMode (c : KeyConfig) (key : Int) (s : State) :
    (onKeyRelease c key s).1.currentMode = s.currentMode := by
  unfold onKeyRelease
  split_ifs <;> simp [routeKeyRelease_state]

theorem onMouseMove_state (x y : Nat) (s : State) :
    (onMouseMove x y s).1 = s := by
  unfold onMouseMove; split <;> rfl

theorem onMouseButtons_state (buttons : Nat) (s : State) :
    (onMouseButtons buttons s).1 = s := by
  unfold onMouseButtons; split <;> rfl

theorem toggleMode_currentMode (s : State) :
    (toggleMode s).currentMode =
      if s.currentMode = .MODE_USB then .MODE_BLE else .MODE_USB := by
  simp [toggleMode, updateLEDs_currentMode]

theorem toggleMode_modifierKeys (s : State) :
    (toggleMode s).modifierKeys = s.modifierKeys := by
  simp [toggleMode, updateLEDs_modifierKeys]

/-! ## Toggle chord -/

/-- C1: with distinct modifier and toggle keys, `onKeyPress key` changes
`currentMode` if and only if `key` is `TOGGLE_KEY` and bit 0 of `modifierKeys`
is set on entry; when it does, USB becomes BLE and BLE becomes USB (one flip);
in every other case `onKeyPress` leaves `currentMode` as it was; and
`onKeyRelease`, `onMouseMove` and `onMouseButtons` never change `currentMode`. -/
theorem onKeyPress_flips_mode_iff_chord (c : KeyConfig)
    (hne : c.MOD_KEY ≠ c.TOGGLE_KEY) (s : State) (key : Int) (x y buttons : Nat) :
    ((onKeyPress c key s).1.currentMode ≠ s.currentMode ↔
        (key = c.TOGGLE_KEY ∧ (s.modifierKeys &&& 1) ≠ 0)) ∧
    ((key = c.TOGGLE_KEY ∧ (s.modifierKeys &&& 1) ≠ 0) →
        (s.currentMode = .MODE_USB →
          (onKeyPress c key s).1.currentMode = .MODE_BLE) ∧
        (s.currentMode = .MODE_BLE →
          (onKeyPress c key s).1.currentMode = .MODE_USB)) ∧
    (¬ (key = c.TOGGLE_KEY ∧ (s.modifierKeys &&& 1) ≠ 0) →
        (onKeyPress c key s).1.currentMode = s.currentMode) ∧
    (onKeyRelease c key s).1.currentMode = s.currentMode ∧
    (onMouseMove x y s).1.currentMode = s.currentMode ∧
    (onMouseButtons buttons s).1.currentMode = s.currentMode := by
  have hchord : (key = c.TOGGLE_KEY ∧ (s.modifierKeys &&& 1) ≠ 0) →
      (onKeyPress c key s).1.currentMode =
        if s.currentMode = .MODE_USB then .MODE_BLE else .MODE_USB := by
    intro h
    have hk : key ≠ c.MOD_KEY := fun e => hne (e ▸ h.1)
    unfold onKeyPress
    rw [if_neg hk, if_pos h]
    simp [toggleMode_currentMode]
  have hplain : ¬ (key = c.TOGGLE_KEY ∧ (s.modifierKeys &&& 1) ≠ 0) →
      (onKeyPress c key s).1.currentMode = s.currentMode := by
    intro h
    unfold onKeyPress
    by_cases hk : key = c.MOD_KEY
    · rw [if_pos hk, routeKeyPress_state]
    · rw [if_neg hk, if_neg h, routeKeyPress_state]
  refine ⟨⟨?_, ?_⟩, ?_, hplain, onKeyRelease_currentMode c key s, ?_, ?_⟩
  · intro hchg
    by_contra h
    exact hchg (hplain h)
  · intro h
    rw [hchord h]
    cases hm : s.currentMode <;> simp
  · intro h
    rw [hchord h]
    constructor <;> intro hm <;> simp [hm]
  · rw [onMouseMove_state]
  · rw [onMouseButtons_state]

/-- Witness for C1: with the sample keys, a toggle key-down in USB mode with the
modifier held ends in BLE mode. -/
theorem onKeyPress_flips_mode_iff_chord_witness :
    sampleKeys.MOD_KEY ≠ sampleKeys.TOGGLE_KEY ∧
    (onKeyPress sampleKeys 0xB1 usbModHeld).1.currentMode = .MODE_BLE :=
  ⟨by decide,
   (onKeyPress_flips_mode_iff_chord sampleKeys (by decide) usbModHeld 0xB1 0 0 0).2.1
      ⟨rfl, by decide⟩ |>.1 rfl⟩

/-- C2: with distinct modifier and toggle keys, in every state whose
`modifierKeys` has bit 0 set, `onKeyPress TOGGLE_KEY` issues no backend call at
all (neither USB nor BLE) and leaves `modifierKeys` unchanged. -/
theorem onKeyPress_chord_consumed (c : KeyConfig)
    (hne : c.MOD_KEY ≠ c.TOGGLE_KEY) (s : State)
    (hbit : (s.modifierKeys &&& 1) ≠ 0) :
    (onKeyPress c c.TOGGLE_KEY s).2 = [] ∧
    (onKeyPress c c.TOGGLE_KEY s).1.modifierKeys = s.modifierKeys := by
  unfold onKeyPress
  rw [if_neg (Ne.symm hne), if_pos ⟨rfl, hbit⟩]
  simp [toggleMode_modifierKeys]

/-- Witness for C2: the sample keys, USB mode with the modifier held. -/
theorem onKeyPress_chord_consumed_witness :
    sampleKeys.MOD_KEY ≠ sampleKeys.TOGGLE_KEY ∧
    (usbModHeld.modifierKeys &&& 1) ≠ 0 ∧
    (onKeyPress sampleKeys sampleKeys.TOGGLE_KEY usbModHeld).2 = [] ∧
    (onKeyPress sampleKeys sampleKeys.TOGGLE_KEY usbModHeld).1.modifierKeys =
      usbModHeld.modifierKeys :=
  ⟨by decide, by decide,
   onKeyPress_chord_consumed sampleKeys (by decide) usbModHeld (by decide)⟩

theorem toU8_natCast (k : Nat) (hk : k < 256) : toU8 (k : Int) = k := by
  unfold toU8; omega

theorem and_one_ne_zero_iff (n : Nat) : (n &&& 1) ≠ 0 ↔ n.testBit 0 = true := by
  rw [Nat.and_one_is_mod, Nat.testBit_zero]; simp

theorem and_two_ne_zero_iff (n : Nat) : (n &&& 2) ≠ 0 ↔ n.testBit 1 = true := by
  have h := Nat.and_two_pow n 1
  simp at h
  rw [h]; cases n.testBit 1 <;> simp

theorem and_four_ne_zero_iff (n : Nat) : (n &&& 4) ≠ 0 ↔ n.testBit 2 = true := by
  have h := Nat.and_two_pow n 2
  simp at h
  rw [h]; cases n.testBit 2 <;> simp

theorem onMouseButtons_ble (buttons : Nat) (s : State)
    (hmode : s.currentMode = .MODE_BLE) :
    (onMouseButtons buttons s).2 =
      [ buttonCall (buttons.testBit 0) .MOUSE_LEFT,
        buttonCall (buttons.testBit 1) .MOUSE_RIGHT,
        buttonCall (buttons.testBit 2) .MOUSE_MIDDLE ] := by
  unfold onMouseButtons buttonCall
  rw [if_neg (by rw [hmode]; decide)]
  simp only [and_one_ne_zero_iff, and_two_ne_zero_iff, and_four_ne_zero_iff]

/-- C3: with distinct modifier and toggle keys, in every state whose
`modifierKeys` has bit 0 clear, `onKeyPress TOGGLE_KEY` leaves the whole state
(so the mode) unchanged and issues exactly one call: in USB mode the keyboard
report with id 1, modifier byte `modifierKeys` and key array
`[TOGGLE_KEY, 0, 0, 0, 0, 0]` (the key stored as 8 bits), in BLE mode
`press(TOGGLE_KEY)`; every other non-modifier key `k` is handled the same way,
with `k` in the place of `TOGGLE_KEY`; and the 8-bit code stored is
`TOGGLE_KEY` itself when `TOGGLE_KEY` lies in 0..255. -/
theorem onKeyPress_toggle_without_modifier (c : KeyConfig)
    (hne : c.MOD_KEY ≠ c.TOGGLE_KEY) (s : State)
    (hclear : (s.modifierKeys &&& 1) = 0) :
    (onKeyPress c c.TOGGLE_KEY s).1 = s ∧
    (s.currentMode = .MODE_USB →
      (onKeyPress c c.TOGGLE_KEY s).2 =
        [.usbKeyboardReport 1 s.modifierKeys [toU8 c.TOGGLE_KEY, 0, 0, 0, 0, 0]]) ∧
    (s.currentMode = .MODE_BLE →
      (onKeyPress c c.TOGGLE_KEY s).2 = [.bleKeyboardPress (toU8 c.TOGGLE_KEY)]) ∧
    (∀ k : Int, k ≠ c.MOD_KEY → k ≠ c.TOGGLE_KEY →
      (onKeyPress c k s).1 = s ∧
      (s.currentMode = .MODE_USB →
        (onKeyPress c k s).2 =
          [.usbKeyboardReport 1 s.modifierKeys [toU8 k, 0, 0, 0, 0, 0]]) ∧
      (s.currentMode = .MODE_BLE →
        (onKeyPress c k s).2 = [.bleKeyboardPress (toU8 k)])) ∧
    (0 ≤ c.TOGGLE_KEY → c.TOGGLE_KEY < 256 →
      ((toU8 c.TOGGLE_KEY : Nat) : Int) = c.TOGGLE_KEY) := by
  have hroute : ∀ k : Int, (routeKeyPress k s).1 = s ∧
      (s.currentMode = .MODE_USB →
        (routeKeyPress k s).2 =
          [.usbKeyboardReport 1 s.modifierKeys [toU8 k, 0, 0, 0, 0, 0]]) ∧
      (s.currentMode = .MODE_BLE →
        (routeKeyPress k s).2 = [.bleKeyboardPress (toU8 k)]) := by
    intro k
    refine ⟨routeKeyPress_state k s, ?_, ?_⟩
    · intro hm
      simp [routeKeyPress, hm, HID_KEYBOARD_REPORT_ID]
    · intro hm
      simp [routeKeyPress, hm]
  have htog : onKeyPress c c.TOGGLE_KEY s = routeKeyPress c.TOGGLE_KEY s := by
    unfold onKeyPress
    rw [if_neg (Ne.symm hne), if_neg (fun h => h.2 hclear)]
  have hord : ∀ k : Int, k ≠ c.MOD_KEY → k ≠ c.TOGGLE_KEY →
      onKeyPress c k s = routeKeyPress k s := by
    intro k h1 h2
    unfold onKeyPress
    rw [if_neg h1, if_neg (fun h => h2 h.1)]
  refine ⟨?_, ?_, ?_, ?_, ?_⟩
  · rw [htog]; exact (hroute _).1
  · rw [htog]; exact (hroute _).2.1
  · rw [htog]; exact (hroute _).2.2
  · intro k h1 h2
    rw [hord k h1 h2]; exact hroute k
  · intro h0 h1
    unfold toU8; omega

/-- Witness for C3: the sample keys in BLE mode with no modifier held; the
toggle key goes out as `press(0xB1)`. -/
theorem onKeyPress_toggle_without_modifier_witness :
    sampleKeys.MOD_KEY ≠ sampleKeys.TOGGLE_KEY ∧
    (bleIdle.modifierKeys &&& 1) = 0 ∧
    (onKeyPress sampleKeys sampleKeys.TOGGLE_KEY bleIdle).2 =
      [.bleKeyboardPress (toU8 sampleKeys.TOGGLE_KEY)] :=
  ⟨by decide, by decide,
   (onKeyPress_toggle_without_modifier sampleKeys (by decide) bleIdle
      (by decide)).2.2.1 rfl⟩

/-! ## Output routing -/

/-- C4: every forwarded callback touches exactly one backend, the one selected
by `currentMode`.  For every state, `onKeyRelease`, `onMouseMove` and
`onMouseButtons` with any argument, and `onKeyPress` with any key that does not
fire the toggle chord, issue at least one call, and all their calls are USB
report calls when the mode is USB and BLE calls when the mode is BLE. -/
theorem forwarded_callbacks_touch_one_backend (c : KeyConfig) (s : State)
    (key : Int) (x y buttons : Nat) :
    routedOnlyTo s.currentMode (onKeyRelease c key s).2 ∧
    routedOnlyTo s.currentMode (onMouseMove x y s).2 ∧
    routedOnlyTo s.currentMode (onMouseButtons buttons s).2 ∧
    (¬ (key = c.TOGGLE_KEY ∧ (s.modifierKeys &&& 1) ≠ 0) →
      routedOnlyTo s.currentMode (onKeyPress c key s).2) := by
  refine ⟨?_, ?_, ?_, ?_⟩
  · unfold onKeyRelease routeKeyRelease routedOnlyTo
    cases hm : s.currentMode <;> split_ifs <;> simp_all [Call.isUsb, Call.isBle]
  · unfold onMouseMove routedOnlyTo
    cases hm : s.currentMode <;> simp [Call.isUsb, Call.isBle]
  · unfold onMouseButtons routedOnlyTo
    cases hm : s.currentMode
    · simp [Call.isUsb, Call.isBle]
    · simp only [reduceCtorEq, if_false]
      refine ⟨by simp, ?_⟩
      intro call hcall
      simp only [List.mem_cons, List.mem_singleton, List.not_mem_nil, or_false] at hcall
      rcases hcall with h | h | h <;> subst h <;> split_ifs <;>
        simp [Call.isUsb, Call.isBle]
  · intro hfw
    unfold onKeyPress routeKeyPress routedOnlyTo
    by_cases hk : key = c.MOD_KEY
    · rw [if_pos hk]
      cases hm : s.currentMode <;> simp [Call.isUsb, Call.isBle]
    · rw [if_neg hk, if_neg hfw]
      cases hm : s.currentMode <;> simp [Call.isUsb, Call.isBle]

/-- Witness for C4: the letter key 65 in BLE mode is forwarded to BLE only. -/
theorem forwarded_callbacks_touch_one_backend_witness :
    ¬ ((65 : Int) = sampleKeys.TOGGLE_KEY ∧ (bleIdle.modifierKeys &&& 1) ≠ 0) ∧
    routedOnlyTo bleIdle.currentMode (onKeyPress sampleKeys 65 bleIdle).2 :=
  ⟨by decide,
   (forwarded_callbacks_touch_one_backend sampleKeys bleIdle 65 0 0 0).2.2.2
      (by decide)⟩

/-- C5: in USB mode, for every key code `k` in 0..255 other than `MOD_KEY`
whose key-down does not fire the toggle chord, `onKeyPress k` followed by
`onKeyRelease k` issues exactly two calls, both USB keyboard reports with
report id 1 and modifier byte `modifierKeys`, which stays unchanged: the first
with key array `[k, 0, 0, 0, 0, 0]`, the second with an all-zero key array;
no call goes to BLE. -/
theorem usb_key_down_up_reports (c : KeyConfig) (s : State) (k : Nat)
    (hmode : s.currentMode = .MODE_USB) (hk : k < 256)
    (hmod : (k : Int) ≠ c.MOD_KEY)
    (hfw : ¬ ((k : Int) = c.TOGGLE_KEY ∧ (s.modifierKeys &&& 1) ≠ 0)) :
    (run c [.keyPress k, .keyRelease k] s).2 =
      [ .usbKeyboardReport 1 s.modifierKeys [k, 0, 0, 0, 0, 0],
        .usbKeyboardReport 1 s.modifierKeys [0, 0, 0, 0, 0, 0] ] ∧
    (run c [.keyPress k, .keyRelease k] s).1.modifierKeys = s.modifierKeys ∧
    (∀ call ∈ (run c [.keyPress k, .keyRelease k] s).2, call.isBle = false) := by
  have hpress : onKeyPress c k s = routeKeyPress k s := by
    unfold onKeyPress
    rw [if_neg hmod, if_neg hfw]
  have hout : (run c [.keyPress k, .keyRelease k] s).2 =
      [ .usbKeyboardReport 1 s.modifierKeys [k, 0, 0, 0, 0, 0],
        .usbKeyboardReport 1 s.modifierKeys [0, 0, 0, 0, 0, 0] ] := by
    simp only [run, dispatch, hpress, routeKeyPress_state]
    unfold onKeyRelease
    rw [if_neg hmod]
    split_ifs <;>
      simp [routeKeyPress, routeKeyRelease, hmode, HID_KEYBOARD_REPORT_ID,
        toU8_natCast k hk]
  refine ⟨hout, ?_, ?_⟩
  · simp only [run, dispatch, hpress, routeKeyPress_state]
    unfold onKeyRelease
    rw [if_neg hmod]
    split_ifs <;> simp [routeKeyRelease_state]
  · rw [hout]
    intro call hcall
    simp only [List.mem_cons, List.mem_singleton, List.not_mem_nil, or_false] at hcall
    rcases hcall with h | h <;> subst h <;> rfl

/-- Witness for C5 (Scenario B): key 65, the letter A, down then up in USB mode
with the modifier held. -/
theorem usb_key_down_up_reports_witness :
    usbModHeld.currentMode = .MODE_USB ∧ (65 : Nat) < 256 ∧
    (((65 : Nat) : Int) ≠ sampleKeys.MOD_KEY) ∧
    (run sampleKeys [.keyPress 65, .keyRelease 65] usbModHeld).2 =
      [ .usbKeyboardReport 1 1 [65, 0, 0, 0, 0, 0],
        .usbKeyboardReport 1 1 [0, 0, 0, 0, 0, 0] ] :=
  ⟨rfl, by decide, by decide,
   (usb_key_down_up_reports sampleKeys usbModHeld 65 rfl (by decide) (by decide)
      (by decide)).1⟩

/-! ## Mouse -/

/-- C6: in BLE mode, for every buttons value, `onMouseButtons buttons` issues
exactly three BLE mouse calls and nothing else, in the order LEFT, RIGHT,
MIDDLE: press when the bit of the button (0, 1, 2 respectively) is set in
`buttons`, release otherwise; two masks that agree on their three low bits
give the same calls, so bits 3 and above have no effect. -/
theorem onMouseButtons_ble_three_calls (s : State) (buttons : Nat)
    (hmode : s.currentMode = .MODE_BLE) :
    (onMouseButtons buttons s).2 =
      [ if buttons.testBit 0 then .bleMousePress .MOUSE_LEFT
        else .bleMouseRelease .MOUSE_LEFT,
        if buttons.testBit 1 then .bleMousePress .MOUSE_RIGHT
        else .bleMouseRelease .MOUSE_RIGHT,
        if buttons.testBit 2 then .bleMousePress .MOUSE_MIDDLE
        else .bleMouseRelease .MOUSE_MIDDLE ] ∧
    (∀ other : Nat, other % 8 = buttons % 8 →
      (onMouseButtons other s).2 = (onMouseButtons buttons s).2) := by
  refine ⟨?_, ?_⟩
  · rw [onMouseButtons_ble buttons s hmode]; rfl
  · intro other h
    have hbit : ∀ i, i < 3 → other.testBit i = buttons.testBit i := by
      intro i hi
      have h1 := Nat.testBit_mod_two_pow other 3 i
      have h2 := Nat.testBit_mod_two_pow buttons 3 i
      simp only [hi, decide_True, Bool.true_and] at h1 h2
      rw [← h1, ← h2]
      show (other % 8).testBit i = (buttons % 8).testBit i
      rw [h]
    rw [onMouseButtons_ble other s hmode, onMouseButtons_ble buttons s hmode,
      hbit 0 (by decide), hbit 1 (by decide), hbit 2 (by decide)]

/-- Witness for C6 (Scenario C): mask `0b011` in BLE mode gives press(LEFT),
press(RIGHT), release(MIDDLE). -/
theorem onMouseButtons_ble_three_calls_witness :
    bleIdle.currentMode = .MODE_BLE ∧
    (onMouseButtons 0b011 bleIdle).2 =
      [ .bleMousePress .MOUSE_LEFT, .bleMousePress .MOUSE_RIGHT,
        .bleMouseRelease .MOUSE_MIDDLE ] :=
  ⟨rfl, (onMouseButtons_ble_three_calls bleIdle 0b011 rfl).1.trans (by decide)⟩

theorem applyMouseCalls_onMouseButtons (s : State) (held : Finset MouseButton)
    (mask : Nat) (hmode : s.currentMode = .MODE_BLE) :
    applyMouseCalls held (onMouseButtons mask s).2 = maskButtons mask := by
  rw [onMouseButtons_ble mask s hmode]
  unfold applyMouseCalls maskButtons buttonCall
  cases mask.testBit 0 <;> cases mask.testBit 1 <;> cases mask.testBit 2 <;>
    (ext b; cases b <;> simp [applyMouseCall])

/-- C7: idempotence of the BLE button resynchronisation.  With the BLE host's
button state modelled as the set of held buttons (press inserts, release
removes), for every starting button state and every mask, applying the calls of
`onMouseButtons mask` in BLE mode twice in a row gives the same button state as
applying them once, and that state is exactly the set holding LEFT iff bit 0,
RIGHT iff bit 1 and MIDDLE iff bit 2 of the mask, whatever the starting button
state was. -/
theorem onMouseButtons_ble_idempotent (s : State) (held : Finset MouseButton)
    (mask : Nat) (hmode : s.currentMode = .MODE_BLE) :
    applyMouseCalls (applyMouseCalls held (onMouseButtons mask s).2)
        (onMouseButtons mask (onMouseButtons mask s).1).2 =
      applyMouseCalls held (onMouseButtons mask s).2 ∧
    applyMouseCalls held (onMouseButtons mask s).2 = maskButtons mask := by
  rw [onMouseButtons_state]
  constructor
  · rw [applyMouseCalls_onMouseButtons s _ mask hmode,
      applyMouseCalls_onMouseButtons s held mask hmode]
  · exact applyMouseCalls_onMouseButtons s held mask hmode

/-- Witness for C7: mask `0b011` sent to a host that holds only MIDDLE. -/
theorem onMouseButtons_ble_idempotent_witness :
    bleIdle.currentMode = .MODE_BLE ∧
    applyMouseCalls {MouseButton.MOUSE_MIDDLE} (onMouseButtons 0b011 bleIdle).2 =
      {MouseButton.MOUSE_LEFT, MouseButton.MOUSE_RIGHT} :=
  ⟨rfl,
   (onMouseButtons_ble_idempotent bleIdle {MouseButton.MOUSE_MIDDLE} 0b011 rfl).2.trans
      (by decide)⟩

theorem toI8_toU8 (d : Int) (hlo : -128 ≤ d) (hhi : d ≤ 127) :
    toI8 (toU8 d) = d := by
  unfold toI8 toU8
  split <;> omega

/-- C8: for every signed 8-bit pair `(dx, dy)` in -128..127, delivering the
motion to `onMouseMove` through its unsigned 8-bit parameters issues, in USB
mode, exactly one USB mouse report with report id 2, buttons 0, wheel 0 and
signed motion fields equal to `dx` and `dy` (the conversions signed to unsigned
to signed are the identity), and in BLE mode exactly one `move(dx, dy)`. -/
theorem onMouseMove_signed_motion (s : State) (dx dy : Int)
    (hxlo : -128 ≤ dx) (hxhi : dx ≤ 127) (hylo : -128 ≤ dy) (hyhi : dy ≤ 127) :
    (s.currentMode = .MODE_USB →
      (deliverMouseMove dx dy s).2 = [.usbMouseReport 2 0 dx dy 0]) ∧
    (s.currentMode = .MODE_BLE →
      (deliverMouseMove dx dy s).2 = [.bleMouseMove dx dy]) := by
  unfold deliverMouseMove onMouseMove
  rw [toI8_toU8 dx hxlo hxhi, toI8_toU8 dy hylo hyhi]
  constructor <;> intro hm <;> simp [hm, HID_MOUSE_REPORT_ID]

/-- Witness for C8 (Scenario D): the motion (5, -3) in USB mode. -/
theorem onMouseMove_signed_motion_witness :
    (-128 : Int) ≤ 5 ∧ (5 : Int) ≤ 127 ∧ (-128 : Int) ≤ -3 ∧ (-3 : Int) ≤ 127 ∧
    (deliverMouseMove 5 (-3) usbModHeld).2 = [.usbMouseReport 2 0 5 (-3) 0] :=
  ⟨by decide, by decide, by decide, by decide,
   (onMouseMove_signed_motion usbModHeld 5 (-3) (by decide) (by decide)
      (by decide) (by decide)).1 rfl⟩

/-! ## Mode indicators -/

theorem updateLEDs_ledsShowMode (s : State) : ledsShowMode (updateLEDs s) := by
  unfold ledsShowMode updateLEDs digitalWrite
  cases hm : s.currentMode <;> simp [USB_MODE_LED, BLE_MODE_LED, hm]

theorem routeKeyPress_ledsShowMode (key : Int) (s : State) (h : ledsShowMode s) :
    ledsShowMode (routeKeyPress key s).1 := by
  rw [routeKeyPress_state]; exact h

theorem routeKeyRelease_ledsShowMode (key : Int) (s : State)
    (h : ledsShowMode s) : ledsShowMode (routeKeyRelease key s).1 := by
  rw [routeKeyRelease_state]; exact h

theorem dispatch_ledsShowMode (c : KeyConfig) (e : Event) (s : State)
    (h : ledsShowMode s) : ledsShowMode (dispatch c e s).1 := by
  cases e with
  | keyPress key =>
    simp only [dispatch]
    unfold onKeyPress
    split_ifs
    · exact routeKeyPress_ledsShowMode _ _ h
    · exact updateLEDs_ledsShowMode _
    · exact routeKeyPress_ledsShowMode _ _ h
  | keyRelease key =>
    simp only [dispatch]
    unfold onKeyRelease
    split_ifs
    · exact routeKeyRelease_ledsShowMode _ _ h
    · exact routeKeyRelease_ledsShowMode _ _ h
    · exact routeKeyRelease_ledsShowMode _ _ h
  | mouseMove x y =>
    simp only [dispatch, onMouseMove_state]; exact h
  | mouseButtons buttons =>
    simp only [dispatch, onMouseButtons_state]; exact h

theorem run_ledsShowMode (c : KeyConfig) (evs : List Event) :
    ∀ s : State, ledsShowMode s → ledsShowMode (run c evs s).1 := by
  induction evs with
  | nil => intro s h; exact h
  | cons e es ih =>
    intro s h
    simp only [run]
    exact ih _ (dispatch_ledsShowMode c e s h)

/-- C9: mode indicator exclusivity.  In every state reached from boot (`setup`
followed by any finite sequence of key and mouse callbacks), observed after
each callback of the sequence has returned (that is, after every initial
segment of the sequence), the USB indicator is HIGH iff `currentMode` is USB,
the BLE indicator is HIGH iff `currentMode` is BLE, and exactly one of the two
is HIGH. -/
theorem indicators_exclusive_after_each_callback (c : KeyConfig)
    (evs : List Event) (n : Nat) :
    ((run c (evs.take n) boot).1.usbLed = true ↔
        (run c (evs.take n) boot).1.currentMode = .MODE_USB) ∧
    ((run c (evs.take n) boot).1.bleLed = true ↔
        (run c (evs.take n) boot).1.currentMode = .MODE_BLE) ∧
    (((run c (evs.take n) boot).1.usbLed = true ∧
        (run c (evs.take n) boot).1.bleLed = false) ∨
      ((run c (evs.take n) boot).1.usbLed = false ∧
        (run c (evs.take n) boot).1.bleLed = true)) := by
  have h := run_ledsShowMode c (evs.take n) boot (updateLEDs_ledsShowMode _)
  unfold ledsShowMode at h
  refine ⟨h.1, h.2, ?_⟩
  cases hm : (run c (evs.take n) boot).1.currentMode <;>
    cases hu : (run c (evs.take n) boot).1.usbLed <;>
    cases hb : (run c (evs.take n) boot).1.bleLed <;>
    simp_all

/-! ## Scenario A -/

theorem toU8_eq_of_natCast_eq (slot : Nat) (k : Int) (h : (slot : Int) = k) :
    toU8 k = slot % 256 := by
  unfold toU8; omega

theorem run_scenarioA_boot (c : KeyConfig) (hne : c.MOD_KEY ≠ c.TOGGLE_KEY) :
    run c (scenarioA c) boot =
      ({ currentMode := .MODE_BLE, modifierKeys := 0, toggleKeyPressed := false,
         usbLed := false, bleLed := true },
       [ .usbKeyboardReport 1 1 [toU8 c.MOD_KEY, 0, 0, 0, 0, 0],
         .bleKeyboardRelease (toU8 c.TOGGLE_KEY),
         .bleKeyboardRelease (toU8 c.MOD_KEY) ]) := by
  have h1 : (0 ||| 1) % 256 = 1 := by decide
  have h2 : (1 &&& 1) ≠ 0 := by decide
  have h3 : 1 &&& 254 = 0 := by decide
  simp [run, scenarioA, dispatch, boot, setup, initialGlobals, updateLEDs,
    digitalWrite, USB_MODE_LED, BLE_MODE_LED, onKeyPress, onKeyRelease,
    routeKeyPress, routeKeyRelease, toggleMode, HID_KEYBOARD_REPORT_ID,
    hne, Ne.symm hne, h1, h2, h3]

/-- C10 (Scenario A): for key constants whose 8-bit codes differ and whose
toggle code is not the empty-slot code 0, the sequence `onKeyPress MOD_KEY`,
`onKeyPress TOGGLE_KEY`, `onKeyRelease TOGGLE_KEY`, `onKeyRelease MOD_KEY` from
the boot state ends in BLE mode; the calls issued are one USB keyboard report
for the modifier followed by two BLE releases; no USB keyboard report among
them has `TOGGLE_KEY` in its key array, and none of them is a BLE keyboard
press (so none is a press of `TOGGLE_KEY`). -/
theorem scenarioA_toggle_key_not_forwarded (c : KeyConfig)
    (h8 : toU8 c.MOD_KEY ≠ toU8 c.TOGGLE_KEY) (h0 : toU8 c.TOGGLE_KEY ≠ 0) :
    (run c (scenarioA c) boot).1.currentMode = .MODE_BLE ∧
    (run c (scenarioA c) boot).2 =
      [ .usbKeyboardReport 1 1 [toU8 c.MOD_KEY, 0, 0, 0, 0, 0],
        .bleKeyboardRelease (toU8 c.TOGGLE_KEY),
        .bleKeyboardRelease (toU8 c.MOD_KEY) ] ∧
    (∀ (reportId modifier : Nat) (keycode : List Nat),
      .usbKeyboardReport reportId modifier keycode ∈ (run c (scenarioA c) boot).2 →
      ∀ slot ∈ keycode, slot ≠ toU8 c.TOGGLE_KEY ∧ (slot : Int) ≠ c.TOGGLE_KEY) ∧
    (∀ k : Nat, .bleKeyboardPress k ∉ (run c (scenarioA c) boot).2) := by
  have hne : c.MOD_KEY ≠ c.TOGGLE_KEY := fun e => h8 (by rw [e])
  rw [run_scenarioA_boot c hne]
  refine ⟨rfl, rfl, ?_, ?_⟩
  · intro reportId modifier keycode hmem slot hslot
    simp only [List.mem_cons, List.mem_singleton, List.not_mem_nil, or_false,
      Call.usbKeyboardReport.injEq, reduceCtorEq] at hmem
    obtain ⟨-, -, hkeys⟩ := hmem
    subst hkeys
    have hcases : slot = toU8 c.MOD_KEY ∨ slot = 0 := by
      simp only [List.mem_cons, List.mem_singleton, List.not_mem_nil, or_false,
        or_self] at hslot
      exact hslot
    have hslot8 : slot ≠ toU8 c.TOGGLE_KEY := by
      rcases hcases with h | h
      · rw [h]; exact h8
      · rw [h]; exact Ne.symm h0
    refine ⟨hslot8, ?_⟩
    intro hint
    have hlt : slot < 256 := by
      rcases hcases with h | h
      · rw [h]; unfold toU8; omega
      · rw [h]; decide
    have := toU8_eq_of_natCast_eq slot c.TOGGLE_KEY hint
    rw [Nat.mod_eq_of_lt hlt] at this
    exact hslot8 this.symm
  · intro k hmem
    simp at hmem

/-- Witness for C10: Scenario A with the sample keys. -/
theorem scenarioA_toggle_key_not_forwarded_witness :
    toU8 sampleKeys.MOD_KEY ≠ toU8 sampleKeys.TOGGLE_KEY ∧
    toU8 sampleKeys.TOGGLE_KEY ≠ 0 ∧
    (run sampleKeys (scenarioA sampleKeys) boot).1.currentMode = .MODE_BLE ∧
    (run sampleKeys (scenarioA sampleKeys) boot).2 =
      [ .usbKeyboardReport 1 1 [0x82, 0, 0, 0, 0, 0],
        .bleKeyboardRelease 0xB1, .bleKeyboardRelease 0x82 ] :=
  ⟨by decide, by decide,
   (scenarioA_toggle_key_not_forwarded sampleKeys (by decide) (by decide)).1,
   (scenarioA_toggle_key_not_forwarded sampleKeys (by decide) (by decide)).2.1.trans
      (by decide)⟩

/-! ## Sequences of callbacks -/

theorem run_append (c : KeyConfig) (es fs : List Event) :
    ∀ s : State, run c (es ++ fs) s =
      ((run c fs (run c es s).1).1, (run c es s).2 ++ (run c fs (run c es s).1).2) := by
  induction es with
  | nil => intro s; simp [run]
  | cons e es ih =>
    intro s
    show run c (e :: (es ++ fs)) s = _
    simp only [run, ih, List.append_assoc]

theorem run_concat_state (c : KeyConfig) (es : List Event) (e : Event) (s : State) :
    (run c (es ++ [e]) s).1 = (dispatch c e (run c es s).1).1 := by
  rw [run_append]; simp [run]

theorem toU8_lt (k : Int) : toU8 k < 256 := by
  unfold toU8; omega

theorem dispatch_keyboardReport_shape (c : KeyConfig) (e : Event) (s : State)
    (reportId modifier : Nat) (keycode : List Nat)
    (h : Call.usbKeyboardReport reportId modifier keycode ∈ (dispatch c e s).2) :
    ∃ k, k < 256 ∧ keycode = [k, 0, 0, 0, 0, 0] := by
  cases e with
  | keyPress key =>
    simp only [dispatch] at h
    unfold onKeyPress routeKeyPress at h
    split_ifs at h <;> simp at h
    · exact ⟨toU8 key, toU8_lt key, h.2.2⟩
    · exact ⟨toU8 key, toU8_lt key, h.2.2⟩
  | keyRelease key =>
    simp only [dispatch] at h
    unfold onKeyRelease routeKeyRelease at h
    split_ifs at h <;> simp at h <;> exact ⟨0, by decide, h.2.2⟩
  | mouseMove x y =>
    simp only [dispatch] at h
    unfold onMouseMove at h
    split_ifs at h <;> simp at h
  | mouseButtons buttons =>
    simp only [dispatch] at h
    unfold onMouseButtons at h
    split_ifs at h <;> simp at h

theorem run_keyboardReport_shape (c : KeyConfig) (evs : List Event)
    (reportId modifier : Nat) (keycode : List Nat) :
    ∀ s : State,
      Call.usbKeyboardReport reportId modifier keycode ∈ (run c evs s).2 →
      ∃ k, k < 256 ∧ keycode = [k, 0, 0, 0, 0, 0] := by
  induction evs with
  | nil => intro s h; simp [run] at h
  | cons e es ih =>
    intro s h
    simp only [run, List.mem_append] at h
    rcases h with h | h
    · exact dispatch_keyboardReport_shape c e s reportId modifier keycode h
    · exact ih _ h

/-- Counterexample for C11: in USB mode key 65 is pressed and, without a
release in between, key 300 is pressed; the key-down report for 300 has 44 in
slot 0, not the key just pressed. -/
theorem key_down_report_slot_not_key :
    (run sampleKeys [.keyPress 65, .keyPress 300] usbModHeld).2 =
      [ .usbKeyboardReport 1 1 [65, 0, 0, 0, 0, 0],
        .usbKeyboardReport 1 1 [44, 0, 0, 0, 0, 0] ] ∧
    ((44 : Nat) : Int) ≠ 300 := by
  decide

/-- C11, as amended: single-key invariant.  For every finite sequence of
callbacks from any state, every USB keyboard report issued carries a 6-byte key
array whose slots 1 to 5 are zero, so at most one keycode (slot 0) is encoded
in any report.  After any history, whatever keys were pressed and not yet
released, a key-down report has in slot 0 the key just pressed narrowed to 8
bits (`key mod 256`), and a forwarded key-down in USB mode does issue that
report; the slot equals the key itself exactly when the key lies in 0..255. -/
theorem keyboard_reports_hold_one_key (c : KeyConfig) (evs : List Event)
    (s : State) (reportId modifier : Nat) (keycode : List Nat) :
    (Call.usbKeyboardReport reportId modifier keycode ∈ (run c evs s).2 →
      ∃ k, k < 256 ∧ keycode = [k, 0, 0, 0, 0, 0]) ∧
    (∀ key : Int,
      (Call.usbKeyboardReport reportId modifier keycode ∈
          (onKeyPress c key (run c evs s).1).2 →
        keycode = [toU8 key, 0, 0, 0, 0, 0]) ∧
      ((run c evs s).1.currentMode = .MODE_USB →
        ¬ (key = c.TOGGLE_KEY ∧ ((run c evs s).1.modifierKeys &&& 1) ≠ 0) →
        (onKeyPress c key (run c evs s).1).2 =
          [.usbKeyboardReport 1 (onKeyPress c key (run c evs s).1).1.modifierKeys
            [toU8 key, 0, 0, 0, 0, 0]]) ∧
      ((toU8 key : Nat) : Int) = key % 256 ∧
      (((toU8 key : Nat) : Int) = key ↔ (0 ≤ key ∧ key < 256))) := by
  refine ⟨run_keyboardReport_shape c evs reportId modifier keycode s, ?_⟩
  intro key
  refine ⟨?_, ?_, ?_, ?_⟩
  · intro h
    unfold onKeyPress routeKeyPress at h
    split_ifs at h <;> simp at h <;> exact h.2.2
  · intro hm hfw
    unfold onKeyPress routeKeyPress
    by_cases hk : key = c.MOD_KEY
    · simp [hk, hm, HID_KEYBOARD_REPORT_ID]
    · rw [if_neg hk, if_neg hfw]
      simp [hm, HID_KEYBOARD_REPORT_ID]
  · unfold toU8; omega
  · unfold toU8; omega

/-- Witness for C11: key 65 then key 66 pressed in USB mode without a release
in between; the second report holds 66 alone. -/
theorem keyboard_reports_hold_one_key_witness :
    Call.usbKeyboardReport 1 1 [66, 0, 0, 0, 0, 0] ∈
        (run sampleKeys [.keyPress 65, .keyPress 66] usbModHeld).2 ∧
    (∃ k, k < 256 ∧ [66, 0, 0, 0, 0, 0] = [k, 0, 0, 0, 0, 0]) ∧
    [66, 0, 0, 0, 0, 0] = [toU8 66, 0, 0, 0, 0, 0] ∧
    (onKeyPress sampleKeys 66 (run sampleKeys [.keyPress 65] usbModHeld).1).2 =
      [.usbKeyboardReport 1 1 [66, 0, 0, 0, 0, 0]] :=
  ⟨by decide,
   (keyboard_reports_hold_one_key sampleKeys [.keyPress 65, .keyPress 66] usbModHeld
      1 1 [66, 0, 0, 0, 0, 0]).1 (by decide),
   ((keyboard_reports_hold_one_key sampleKeys [.keyPress 65] usbModHeld
      1 1 [66, 0, 0, 0, 0, 0]).2 66).1 (by decide),
   (((keyboard_reports_hold_one_key sampleKeys [.keyPress 65] usbModHeld
      1 1 [66, 0, 0, 0, 0, 0]).2 66).2.1 (by decide) (by decide)).trans (by decide)⟩

/-! ## Modifier mask -/

theorem or_one_mod_and_one (m : Nat) : ((m ||| 1) % 256) &&& 1 = 1 := by
  rw [Nat.and_one_is_mod]
  have h : (m ||| 1).testBit 0 = true := by simp [Nat.testBit_or]
  rw [Nat.testBit_zero] at h
  have h2 := of_decide_eq_true h
  omega

theorem and_254_and_one (m : Nat) : (m &&& 254) &&& 1 = 0 := by
  rw [Nat.and_assoc]; simp

theorem dispatch_modifierKeys_of_not_mod (c : KeyConfig) (e : Event) (s : State)
    (h : isModEvent c e = false) :
    (dispatch c e s).1.modifierKeys = s.modifierKeys := by
  cases e with
  | keyPress key =>
    have hk : key ≠ c.MOD_KEY := by simpa [isModEvent] using h
    simp only [dispatch]
    unfold onKeyPress
    rw [if_neg hk]
    split_ifs
    · simp [toggleMode_modifierKeys]
    · rw [routeKeyPress_state]
  | keyRelease key =>
    have hk : key ≠ c.MOD_KEY := by simpa [isModEvent] using h
    simp only [dispatch]
    unfold onKeyRelease
    rw [if_neg hk]
    split_ifs <;> simp [routeKeyRelease_state]
  | mouseMove x y => simp only [dispatch, onMouseMove_state]
  | mouseButtons buttons => simp only [dispatch, onMouseButtons_state]

theorem onKeyPress_mod_modifierKeys (c : KeyConfig) (s : State) :
    (onKeyPress c c.MOD_KEY s).1.modifierKeys = (s.modifierKeys ||| 1) % 256 := by
  unfold onKeyPress
  rw [if_pos rfl, routeKeyPress_state]

theorem onKeyRelease_mod_modifierKeys (c : KeyConfig) (s : State) :
    (onKeyRelease c c.MOD_KEY s).1.modifierKeys = s.modifierKeys &&& 254 := by
  unfold onKeyRelease
  rw [if_pos rfl, routeKeyRelease_state]

theorem boot_eq : boot =
    { currentMode := .MODE_USB, modifierKeys := 0, toggleKeyPressed := false,
      usbLed := true, bleLed := false } := by
  decide

theorem run_boot_modifierKeys (c : KeyConfig) (evs : List Event) :
    (run c evs boot).1.modifierKeys =
      if (evs.filter (isModEvent c)).getLast? = some (.keyPress c.MOD_KEY)
      then 1 else 0 := by
  induction evs using List.reverseRecOn with
  | nil => simp [run, boot_eq]
  | append_singleton l e ih =>
    rw [run_concat_state, List.filter_append]
    cases hmod : isModEvent c e
    · rw [dispatch_modifierKeys_of_not_mod c e _ hmod, ih]
      simp [List.filter, hmod]
    · have hfilter : List.filter (isModEvent c) [e] = [e] := by
        simp [List.filter, hmod]
      rw [hfilter, List.getLast?_concat]
      cases e with
      | keyPress key =>
        have hk : key = c.MOD_KEY := by simpa [isModEvent] using hmod
        subst hk
        simp only [dispatch, onKeyPress_mod_modifierKeys, if_true, ih]
        split_ifs <;> decide
      | keyRelease key =>
        have hk : key = c.MOD_KEY := by simpa [isModEvent] using hmod
        subst hk
        have hup : ¬ (some (Event.keyRelease c.MOD_KEY) =
            some (Event.keyPress c.MOD_KEY)) := by
          intro h; cases h
        simp only [dispatch, onKeyRelease_mod_modifierKeys, ih]
        rw [if_neg hup]
        split_ifs <;> decide
      | mouseMove x y => simp [isModEvent] at hmod
      | mouseButtons buttons => simp [isModEvent] at hmod

/-- C12: modifier mask invariant.  After every finite sequence of callbacks
from the boot state, bit 0 of `modifierKeys` is set if and only if the sequence
contains a `MOD_KEY` event and the most recent one is a key-down; `modifierKeys`
is 0 or 1 (bits 1 to 7 are zero); and in any state an event that is neither a
`MOD_KEY` key-down nor a `MOD_KEY` key-up, a chord-firing toggle key-down
included, leaves `modifierKeys` unchanged. -/
theorem modifierKeys_tracks_mod_key (c : KeyConfig) (evs : List Event) :
    (((run c evs boot).1.modifierKeys &&& 1) ≠ 0 ↔
      (evs.filter (isModEvent c)).getLast? = some (.keyPress c.MOD_KEY)) ∧
    ((run c evs boot).1.modifierKeys = 0 ∨ (run c evs boot).1.modifierKeys = 1) ∧
    (∀ (s : State) (e : Event), isModEvent c e = false →
      (dispatch c e s).1.modifierKeys = s.modifierKeys) := by
  refine ⟨?_, ?_, fun s e h => dispatch_modifierKeys_of_not_mod c e s h⟩
  · rw [run_boot_modifierKeys]
    split_ifs with h
    · exact ⟨fun _ => h, fun _ => by decide⟩
    · exact ⟨fun h0 => absurd (by decide : 0 &&& 1 = 0) h0, fun hc => absurd hc h⟩
  · rw [run_boot_modifierKeys]
    split_ifs
    · exact Or.inr rfl
    · exact Or.inl rfl

/-- Witness for C12: a chord-firing toggle key-down is not a `MOD_KEY` event
and leaves `modifierKeys` at 1. -/
theorem modifierKeys_tracks_mod_key_witness :
    isModEvent sampleKeys (.keyPress sampleKeys.TOGGLE_KEY) = false ∧
    (dispatch sampleKeys (.keyPress sampleKeys.TOGGLE_KEY) usbModHeld).1.modifierKeys =
      usbModHeld.modifierKeys :=
  ⟨by decide,
   (modifierKeys_tracks_mod_key sampleKeys []).2.2 usbModHeld
      (.keyPress sampleKeys.TOGGLE_KEY) (by decide)⟩

/-! ## Indicator update, statement by statement -/

theorem toggleModeSteps_getLast (s : State) :
    (toggleModeSteps s).getLast? = some (toggleMode s) := by
  simp [toggleModeSteps, updateLEDsSteps, toggleMode, updateLEDs]

/-- Counterexample for C13: in the flip from USB to BLE started in the boot
state, the state after the first `digitalWrite` has both indicators LOW. -/
theorem toggleMode_intermediate_both_low :
    ledsShowMode boot ∧ boot.currentMode = .MODE_USB ∧
    ∃ t ∈ toggleModeSteps boot, t.usbLed = false ∧ t.bleLed = false := by
  decide

/-- C13, as amended: with each `digitalWrite` as its own step, a mode flip
started with the indicators showing the mode goes through three states.  After
the assignment to `currentMode` the pins still show the old mode; after the
first `digitalWrite` (USB indicator) both indicators are LOW in the flip USB to
BLE and both are HIGH in the flip BLE to USB; after the second `digitalWrite`,
which is the state `toggleMode` returns, exactly the indicator of the new mode
is HIGH. -/
theorem toggleMode_indicator_steps (s : State) (h : ledsShowMode s) :
    (s.currentMode = .MODE_USB →
      (toggleModeSteps s).map ledLevels =
        [(true, false), (false, false), (false, true)]) ∧
    (s.currentMode = .MODE_BLE →
      (toggleModeSteps s).map ledLevels =
        [(false, true), (true, true), (true, false)]) ∧
    (toggleModeSteps s).getLast? = some (toggleMode s) ∧
    ledsShowMode (toggleMode s) := by
  refine ⟨?_, ?_, toggleModeSteps_getLast s, updateLEDs_ledsShowMode _⟩
  · intro hm
    obtain ⟨hu, hb⟩ := h
    have hu1 : s.usbLed = true := hu.2 hm
    have hb1 : s.bleLed = false := by
      cases hbl : s.bleLed
      · rfl
      · have := hb.1 hbl
        rw [hm] at this
        cases this
    simp [toggleModeSteps, updateLEDsSteps, digitalWrite, ledLevels, USB_MODE_LED,
      BLE_MODE_LED, hm, hu1, hb1]
  · intro hm
    obtain ⟨hu, hb⟩ := h
    have hb1 : s.bleLed = true := hb.2 hm
    have hu1 : s.usbLed = false := by
      cases hul : s.usbLed
      · rfl
      · have := hu.1 hul
        rw [hm] at this
        cases this
    simp [toggleModeSteps, updateLEDsSteps, digitalWrite, ledLevels, USB_MODE_LED,
      BLE_MODE_LED, hm, hu1, hb1]

/-- Witness for C13: the flip from BLE to USB started in a BLE state passes
through a state with both indicators HIGH. -/
theorem toggleMode_indicator_steps_witness :
    ledsShowMode bleIdle ∧ bleIdle.currentMode = .MODE_BLE ∧
    (toggleModeSteps bleIdle).map ledLevels =
      [(false, true), (true, true), (true, false)] :=
  ⟨by decide, rfl, (toggleMode_indicator_steps bleIdle (by decide)).2.1 rfl⟩

/-! ## Keycode width -/

/-- Counterexample for C14: key 300 is forwarded, but the key array of the USB
report and the argument of the BLE press hold 44, not 300. -/
theorem onKeyPress_300_delivers_44 :
    (300 : Int) ≠ sampleKeys.MOD_KEY ∧ (300 : Int) ≠ sampleKeys.TOGGLE_KEY ∧
    (onKeyPress sampleKeys 300 usbModHeld).2 =
      [.usbKeyboardReport 1 1 [44, 0, 0, 0, 0, 0]] ∧
    (onKeyPress sampleKeys 300 bleIdle).2 = [.bleKeyboardPress 44] ∧
    ((44 : Nat) : Int) ≠ 300 := by
  decide

/-- C14, as amended: keycodes are not validated, and the keycode delivered is
the low 8 bits of the key.  For every `int` key whose key-down is forwarded
(the chord does not fire), in USB mode the single call is a keyboard report
whose key array is `[key mod 256, 0, 0, 0, 0, 0]`, and in BLE mode it is
`press(key mod 256)`; the delivered code equals `key` exactly when `key` lies in
0..255. -/
theorem onKeyPress_delivers_low_byte (c : KeyConfig) (s : State) (key : Int)
    (hfw : ¬ (key = c.TOGGLE_KEY ∧ (s.modifierKeys &&& 1) ≠ 0)) :
    (s.currentMode = .MODE_USB →
      (onKeyPress c key s).2 =
        [.usbKeyboardReport 1 (onKeyPress c key s).1.modifierKeys
          [toU8 key, 0, 0, 0, 0, 0]]) ∧
    (s.currentMode = .MODE_BLE →
      (onKeyPress c key s).2 = [.bleKeyboardPress (toU8 key)]) ∧
    ((toU8 key : Nat) : Int) = key % 256 ∧
    (((toU8 key : Nat) : Int) = key ↔ (0 ≤ key ∧ key < 256)) := by
  refine ⟨?_, ?_, ?_, ?_⟩
  · intro hm
    unfold onKeyPress routeKeyPress
    by_cases hk : key = c.MOD_KEY
    · simp [hk, hm, HID_KEYBOARD_REPORT_ID]
    · rw [if_neg hk, if_neg hfw]
      simp [hm, HID_KEYBOARD_REPORT_ID]
  · intro hm
    unfold onKeyPress routeKeyPress
    by_cases hk : key = c.MOD_KEY
    · simp [hk, hm]
    · rw [if_neg hk, if_neg hfw]
      simp [hm]
  · unfold toU8; omega
  · unfold toU8; omega

/-- Witness for C14: key 300 in USB mode is delivered as 44. -/
theorem onKeyPress_delivers_low_byte_witness :
    ¬ ((300 : Int) = sampleKeys.TOGGLE_KEY ∧ (usbModHeld.modifierKeys &&& 1) ≠ 0) ∧
    (onKeyPress sampleKeys 300 usbModHeld).2 =
      [.usbKeyboardReport 1 1 [44, 0, 0, 0, 0, 0]] :=
  ⟨by decide,
   ((onKeyPress_delivers_low_byte sampleKeys usbModHeld 300 (by decide)).1 rfl).trans
      (by decide)⟩

/-! ## Key release -/

set_option maxRecDepth 100000 in
theorem and_254_eq_sub : ∀ m, m < 256 → m &&& 254 = m - m % 2 := by decide

/-- C15: in every state in USB mode, `onKeyRelease MOD_KEY` issues exactly one
USB keyboard report with report id 1, an all-zero key array, and as modifier
byte `modifierKeys` after bit 0 has been cleared (the other bits of the 8-bit
mask are kept, and bit 0 of the reported byte is 0), whatever keys were pressed
before; and every `onKeyRelease key` in USB mode, for any key, issues one report
with an all-zero key array and the updated `modifierKeys`. -/
theorem onKeyRelease_usb_zero_report (c : KeyConfig) (s : State)
    (hmode : s.currentMode = .MODE_USB) :
    (onKeyRelease c c.MOD_KEY s).2 =
      [.usbKeyboardReport 1 (s.modifierKeys &&& 254) [0, 0, 0, 0, 0, 0]] ∧
    (onKeyRelease c c.MOD_KEY s).1.modifierKeys = s.modifierKeys &&& 254 ∧
    ((s.modifierKeys &&& 254) &&& 1) = 0 ∧
    (s.modifierKeys < 256 →
      s.modifierKeys &&& 254 = s.modifierKeys - s.modifierKeys % 2) ∧
    (∀ key : Int,
      (onKeyRelease c key s).2 =
        [.usbKeyboardReport 1 (onKeyRelease c key s).1.modifierKeys
          [0, 0, 0, 0, 0, 0]]) := by
  refine ⟨?_, onKeyRelease_mod_modifierKeys c s, and_254_and_one _,
    and_254_eq_sub _, ?_⟩
  · unfold onKeyRelease routeKeyRelease
    simp [hmode, HID_KEYBOARD_REPORT_ID]
  · intro key
    unfold onKeyRelease routeKeyRelease
    split_ifs <;> simp_all [HID_KEYBOARD_REPORT_ID]

/-- Witness for C15: releasing the modifier in USB mode with the modifier held
reports modifier byte 0 and no key. -/
theorem onKeyRelease_usb_zero_report_witness :
    usbModHeld.currentMode = .MODE_USB ∧
    (onKeyRelease sampleKeys sampleKeys.MOD_KEY usbModHeld).2 =
      [.usbKeyboardReport 1 0 [0, 0, 0, 0, 0, 0]] :=
  ⟨rfl, (onKeyRelease_usb_zero_report sampleKeys usbModHeld rfl).1.trans (by decide)⟩

/-! ## The toggle flag -/

theorem updateLEDs_toggleKeyPressed (s : State) :
    (updateLEDs s).toggleKeyPressed = s.toggleKeyPressed := by
  simp [updateLEDs, digitalWrite, USB_MODE_LED, BLE_MODE_LED]

theorem dispatch_toggleKeyPressed (c : KeyConfig)
    (hne : c.MOD_KEY ≠ c.TOGGLE_KEY) (e : Event) (s : State) :
    (dispatch c e s).1.toggleKeyPressed =
      if e = .keyRelease c.TOGGLE_KEY then false
      else if e = .keyPress c.TOGGLE_KEY ∧ (s.modifierKeys &&& 1) ≠ 0 then true
      else s.toggleKeyPressed := by
  cases e with
  | keyPress key =>
    simp only [dispatch, reduceCtorEq, if_false, Event.keyPress.injEq]
    unfold onKeyPress
    by_cases hk : key = c.MOD_KEY
    · have hkt : key ≠ c.TOGGLE_KEY := fun h => hne (hk ▸ h)
      rw [if_pos hk, routeKeyPress_state, if_neg (fun h => hkt h.1)]
    · rw [if_neg hk]
      split_ifs
      · simp [toggleMode, updateLEDs_toggleKeyPressed]
      · rw [routeKeyPress_state]
  | keyRelease key =>
    simp only [dispatch, reduceCtorEq, false_and, if_false, Event.keyRelease.injEq]
    unfold onKeyRelease
    by_cases hk : key = c.MOD_KEY
    · have hkt : key ≠ c.TOGGLE_KEY := fun h => hne (hk ▸ h)
      rw [if_pos hk, routeKeyRelease_state, if_neg hkt]
    · rw [if_neg hk]
      split_ifs <;> simp [routeKeyRelease_state]
  | mouseMove x y =>
    simp only [dispatch, onMouseMove_state, reduceCtorEq, false_and, if_false]
  | mouseButtons buttons =>
    simp only [dispatch, onMouseButtons_state, reduceCtorEq, false_and, if_false]

theorem concat_eq_append_cons {α : Type} (l pre post : List α) (e a : α)
    (h : l ++ [e] = pre ++ a :: post) :
    (post = [] ∧ l = pre ∧ e = a) ∨ (∃ L, post = L ++ [e] ∧ l = pre ++ a :: L) := by
  rcases List.eq_nil_or_concat post with rfl | ⟨L, b, rfl⟩
  · have h2 := List.append_inj' h rfl
    left; exact ⟨rfl, h2.1, by simpa using h2.2⟩
  · have h2 : l ++ [e] = (pre ++ a :: L) ++ [b] := by simpa using h
    have h3 := List.append_inj' h2 rfl
    have hb : e = b := by simpa using h3.2
    right; exact ⟨L, by rw [hb, List.concat_eq_append], h3.1⟩

theorem run_boot_toggleKeyPressed (c : KeyConfig)
    (hne : c.MOD_KEY ≠ c.TOGGLE_KEY) (evs : List Event) :
    (run c evs boot).1.toggleKeyPressed = true ↔
      ∃ pre post, evs = pre ++ Event.keyPress c.TOGGLE_KEY :: post ∧
        ((run c pre boot).1.modifierKeys &&& 1) ≠ 0 ∧
        Event.keyRelease c.TOGGLE_KEY ∉ post := by
  induction evs using List.reverseRecOn with
  | nil =>
    constructor
    · intro h; simp [run, boot_eq] at h
    · rintro ⟨pre, post, h, -⟩; simp at h
  | append_singleton l e ih =>
    rw [run_concat_state, dispatch_toggleKeyPressed c hne]
    by_cases h1 : e = .keyRelease c.TOGGLE_KEY
    · rw [if_pos h1]
      constructor
      · intro h; cases h
      · rintro ⟨pre, post, hsplit, -, hno⟩
        rcases concat_eq_append_cons l pre post e _ hsplit with ⟨-, -, he⟩ | ⟨L, hp, -⟩
        · rw [h1] at he; cases he
        · exact absurd (by rw [hp, h1]; simp) hno
    · rw [if_neg h1]
      by_cases h2 : e = .keyPress c.TOGGLE_KEY ∧ ((run c l boot).1.modifierKeys &&& 1) ≠ 0
      · rw [if_pos h2]
        constructor
        · intro _
          exact ⟨l, [], by rw [h2.1], h2.2, by simp⟩
        · intro _; rfl
      · rw [if_neg h2, ih]
        constructor
        · rintro ⟨pre, post, hsplit, hbit, hno⟩
          refine ⟨pre, post ++ [e], by rw [hsplit]; simp, hbit, ?_⟩
          intro hmem
          rcases List.mem_append.1 hmem with h | h
          · exact hno h
          · exact h1 (List.mem_singleton.1 h).symm
        · rintro ⟨pre, post, hsplit, hbit, hno⟩
          rcases concat_eq_append_cons l pre post e _ hsplit with ⟨-, hl, he⟩ | ⟨L, hp, hl⟩
          · exact absurd ⟨he, by rw [hl]; exact hbit⟩ h2
          · refine ⟨pre, L, hl, hbit, ?_⟩
            intro hmem
            exact hno (by rw [hp]; exact List.mem_append_left _ hmem)

/-- Counterexample for C16: from boot, a toggle key-down with the modifier
clear is the most recent `TOGGLE_KEY` event and is a key-down, yet
`toggleKeyPressed` is false afterwards. -/
theorem toggle_down_without_modifier_not_armed :
    ([Event.keyPress sampleKeys.TOGGLE_KEY].filter (isToggleEvent sampleKeys)).getLast? =
        some (Event.keyPress sampleKeys.TOGGLE_KEY) ∧
    (run sampleKeys [.keyPress sampleKeys.TOGGLE_KEY] boot).1.toggleKeyPressed = false := by
  decide

/-- C16, as amended: with distinct modifier and toggle keys, after every finite
sequence of callbacks from the boot state `toggleKeyPressed` is true if and
only if the sequence contains a toggle key-down that arrived while bit 0 of
`modifierKeys` was set (a chord-firing key-down) with no toggle key-up after
it.  In any state a toggle key-down sets the flag when the modifier bit is set
and leaves it as it was when the bit is clear, and every toggle key-up clears
it. -/
theorem toggleKeyPressed_tracks_chord (c : KeyConfig)
    (hne : c.MOD_KEY ≠ c.TOGGLE_KEY) (evs : List Event) :
    ((run c evs boot).1.toggleKeyPressed = true ↔
      ∃ pre post, evs = pre ++ Event.keyPress c.TOGGLE_KEY :: post ∧
        ((run c pre boot).1.modifierKeys &&& 1) ≠ 0 ∧
        Event.keyRelease c.TOGGLE_KEY ∉ post) ∧
    (∀ s : State, (s.modifierKeys &&& 1) ≠ 0 →
      (onKeyPress c c.TOGGLE_KEY s).1.toggleKeyPressed = true) ∧
    (∀ s : State, (s.modifierKeys &&& 1) = 0 →
      (onKeyPress c c.TOGGLE_KEY s).1.toggleKeyPressed = s.toggleKeyPressed) ∧
    (∀ s : State, (onKeyRelease c c.TOGGLE_KEY s).1.toggleKeyPressed = false) := by
  refine ⟨run_boot_toggleKeyPressed c hne evs, ?_, ?_, ?_⟩
  · intro s hbit
    have h := dispatch_toggleKeyPressed c hne (.keyPress c.TOGGLE_KEY) s
    simp only [dispatch, reduceCtorEq, if_false] at h
    rw [h, if_pos ⟨trivial, hbit⟩]
  · intro s hbit
    have h := dispatch_toggleKeyPressed c hne (.keyPress c.TOGGLE_KEY) s
    simp only [dispatch, reduceCtorEq, if_false] at h
    rw [h, if_neg (fun hc => hc.2 hbit)]
  · intro s
    have h := dispatch_toggleKeyPressed c hne (.keyRelease c.TOGGLE_KEY) s
    simp only [dispatch, if_true] at h
    exact h

/-- Witness for C16: with the sample keys, after modifier down and toggle key
down the flag is set. -/
theorem toggleKeyPressed_tracks_chord_witness :
    sampleKeys.MOD_KEY ≠ sampleKeys.TOGGLE_KEY ∧
    (run sampleKeys [.keyPress sampleKeys.MOD_KEY, .keyPress sampleKeys.TOGGLE_KEY]
      boot).1.toggleKeyPressed = true :=
  ⟨by decide,
   (toggleKeyPressed_tracks_chord sampleKeys (by decide)
      [.keyPress sampleKeys.MOD_KEY, .keyPress sampleKeys.TOGGLE_KEY]).1.2
      ⟨[.keyPress sampleKeys.MOD_KEY], [], rfl, by decide, by simp⟩⟩

/-- C17: with distinct modifier and toggle keys, in every state, whatever
`modifierKeys` and `currentMode` are, `onKeyRelease TOGGLE_KEY` leaves
`toggleKeyPressed` false.  In particular, from any state, after modifier down
and toggle key down the flag is set (the chord has fired), and after the
further modifier up and toggle key up the flag is false. -/
theorem toggleKeyPressed_cleared_on_release (c : KeyConfig)
    (hne : c.MOD_KEY ≠ c.TOGGLE_KEY) (s : State) :
    (onKeyRelease c c.TOGGLE_KEY s).1.toggleKeyPressed = false ∧
    (run c ((chordModifierUpFirst c).take 2) s).1.toggleKeyPressed = true ∧
    (run c (chordModifierUpFirst c) s).1.toggleKeyPressed = false := by
  have hrel : ∀ t : State, (onKeyRelease c c.TOGGLE_KEY t).1.toggleKeyPressed = false := by
    intro t
    have h := dispatch_toggleKeyPressed c hne (.keyRelease c.TOGGLE_KEY) t
    simp only [dispatch, if_true] at h
    exact h
  refine ⟨hrel s, ?_, ?_⟩
  · have h1 := or_one_mod_and_one s.modifierKeys
    have hbit : (((onKeyPress c c.MOD_KEY s).1.modifierKeys) &&& 1) ≠ 0 := by
      rw [onKeyPress_mod_modifierKeys, h1]; decide
    have h := dispatch_toggleKeyPressed c hne (.keyPress c.TOGGLE_KEY)
      (onKeyPress c c.MOD_KEY s).1
    simp only [dispatch, reduceCtorEq, if_false] at h
    simp only [chordModifierUpFirst, List.take, run, dispatch]
    rw [h, if_pos ⟨trivial, hbit⟩]
  · have happ : chordModifierUpFirst c =
        [.keyPress c.MOD_KEY, .keyPress c.TOGGLE_KEY, .keyRelease c.MOD_KEY] ++
          [.keyRelease c.TOGGLE_KEY] := rfl
    rw [happ, run_concat_state]
    exact hrel _

/-- Witness for C17: the sample keys, toggle key released in BLE mode with the
flag set and the modifier already up. -/
theorem toggleKeyPressed_cleared_on_release_witness :
    sampleKeys.MOD_KEY ≠ sampleKeys.TOGGLE_KEY ∧
    (onKeyRelease sampleKeys sampleKeys.TOGGLE_KEY
      { bleIdle with toggleKeyPressed := true }).1.toggleKeyPressed = false :=
  ⟨by decide,
   (toggleKeyPressed_cleared_on_release sampleKeys (by decide)
      { bleIdle with toggleKeyPressed := true }).1⟩

/-- C18: the toggle flag does not influence outputs or routing.  For any two
states that agree on `currentMode` and `modifierKeys` (so in particular two
states that differ only in `toggleKeyPressed`) and for every callback with the
same argument, both runs issue the same sequence of backend calls and end with
the same `currentMode` and the same `modifierKeys`. -/
theorem toggleKeyPressed_not_observable (c : KeyConfig) (e : Event)
    (s1 s2 : State) (hmode : s1.currentMode = s2.currentMode)
    (hkeys : s1.modifierKeys = s2.modifierKeys) :
    (dispatch c e s1).2 = (dispatch c e s2).2 ∧
    (dispatch c e s1).1.currentMode = (dispatch c e s2).1.currentMode ∧
    (dispatch c e s1).1.modifierKeys = (dispatch c e s2).1.modifierKeys := by
  cases e with
  | keyPress key =>
    simp only [dispatch]
    unfold onKeyPress routeKeyPress
    rw [hkeys]
    split_ifs <;>
      simp_all [toggleMode_currentMode, toggleMode_modifierKeys]
  | keyRelease key =>
    simp only [dispatch]
    unfold onKeyRelease routeKeyRelease
    rw [hkeys]
    split_ifs <;> simp_all
  | mouseMove x y =>
    simp only [dispatch]
    unfold onMouseMove
    split_ifs <;> simp_all
  | mouseButtons buttons =>
    simp only [dispatch]
    unfold onMouseButtons
    split_ifs <;> simp_all

/-- Witness for C18: key 65 pressed in two USB states that differ only in the
flag. -/
theorem toggleKeyPressed_not_observable_witness :
    usbModHeld.currentMode = { usbModHeld with toggleKeyPressed := true }.currentMode ∧
    usbModHeld.modifierKeys = { usbModHeld with toggleKeyPressed := true }.modifierKeys ∧
    (dispatch sampleKeys (.keyPress 65) usbModHeld).2 =
      (dispatch sampleKeys (.keyPress 65) { usbModHeld with toggleKeyPressed := true }).2 :=
  ⟨rfl, rfl,
   (toggleKeyPressed_not_observable sampleKeys (.keyPress 65) usbModHeld
      { usbModHeld with toggleKeyPressed := true } rfl rfl).1⟩

/-! ## The modifier key as a keycode -/

/-- C19: the modifier key is itself forwarded.  In every state
`onKeyPress MOD_KEY` is not consumed: in USB mode it issues exactly one
keyboard report, with report id 1, whose modifier byte is the mask after the
update (bit 0 set) and whose key array has the low 8 bits of `MOD_KEY` in slot 0
and zero in slots 1 to 5; in BLE mode it issues exactly one `press(MOD_KEY)`. -/
theorem onKeyPress_mod_key_forwarded (c : KeyConfig) (s : State) :
    (s.currentMode = .MODE_USB →
      (onKeyPress c c.MOD_KEY s).2 =
        [.usbKeyboardReport 1 ((s.modifierKeys ||| 1) % 256)
          [toU8 c.MOD_KEY, 0, 0, 0, 0, 0]]) ∧
    (s.currentMode = .MODE_BLE →
      (onKeyPress c c.MOD_KEY s).2 = [.bleKeyboardPress (toU8 c.MOD_KEY)]) ∧
    (onKeyPress c c.MOD_KEY s).1.modifierKeys = (s.modifierKeys ||| 1) % 256 ∧
    ((((s.modifierKeys ||| 1) % 256) &&& 1) ≠ 0) ∧
    ((toU8 c.MOD_KEY : Nat) : Int) = c.MOD_KEY % 256 := by
  refine ⟨?_, ?_, onKeyPress_mod_modifierKeys c s, ?_, ?_⟩
  · intro hm
    unfold onKeyPress routeKeyPress
    simp [hm, HID_KEYBOARD_REPORT_ID]
  · intro hm
    unfold onKeyPress routeKeyPress
    simp [hm]
  · rw [or_one_mod_and_one]; decide
  · unfold toU8; omega

/-- Witness for C19: the sample modifier key pressed in BLE mode goes out as
`press(0x82)`. -/
theorem onKeyPress_mod_key_forwarded_witness :
    bleIdle.currentMode = .MODE_BLE ∧
    (onKeyPress sampleKeys sampleKeys.MOD_KEY bleIdle).2 = [.bleKeyboardPress 0x82] :=
  ⟨rfl, ((onKeyPress_mod_key_forwarded sampleKeys bleIdle).2.1 rfl).trans (by decide)⟩

theorem run_scenarioA_usb (c : KeyConfig) (hne : c.MOD_KEY ≠ c.TOGGLE_KEY)
    (s : State) (hmode : s.currentMode = .MODE_USB) (hkeys : s.modifierKeys = 0) :
    (run c (scenarioA c) s).2 =
      [ .usbKeyboardReport 1 1 [toU8 c.MOD_KEY, 0, 0, 0, 0, 0],
        .bleKeyboardRelease (toU8 c.TOGGLE_KEY),
        .bleKeyboardRelease (toU8 c.MOD_KEY) ] ∧
    (run c (scenarioA c) s).1.currentMode = .MODE_BLE := by
  have h1 : (0 ||| 1) % 256 = 1 := by decide
  have h2 : (1 &&& 1) ≠ 0 := by decide
  simp [run, scenarioA, dispatch, updateLEDs, digitalWrite, USB_MODE_LED,
    BLE_MODE_LED, onKeyPress, onKeyRelease, routeKeyPress, routeKeyRelease,
    toggleMode, HID_KEYBOARD_REPORT_ID, hne, Ne.symm hne, hmode, hkeys, h1, h2]

/-- C20: the chord leaves the modifier stuck on the backend being left.  With
distinct modifier and toggle keys, from every state in USB mode with
`modifierKeys = 0`, the sequence `onKeyPress MOD_KEY`, `onKeyPress TOGGLE_KEY`,
`onKeyRelease TOGGLE_KEY`, `onKeyRelease MOD_KEY` issues three calls in all:
one USB keyboard report with modifier byte 1 and `MOD_KEY` (as 8 bits) in
slot 0, then `release(TOGGLE_KEY)` and `release(MOD_KEY)` on BLE.  That report
is the only USB call, so no later USB report clears the modifier byte or the
key slot, and there is no BLE press for the two keys released on BLE. -/
theorem chord_leaves_modifier_stuck_on_usb (c : KeyConfig)
    (hne : c.MOD_KEY ≠ c.TOGGLE_KEY) (s : State)
    (hmode : s.currentMode = .MODE_USB) (hkeys : s.modifierKeys = 0) :
    (run c (scenarioA c) s).2 =
      [ .usbKeyboardReport 1 1 [toU8 c.MOD_KEY, 0, 0, 0, 0, 0],
        .bleKeyboardRelease (toU8 c.TOGGLE_KEY),
        .bleKeyboardRelease (toU8 c.MOD_KEY) ] ∧
    (run c (scenarioA c) s).2.filter Call.isUsb =
      [ .usbKeyboardReport 1 1 [toU8 c.MOD_KEY, 0, 0, 0, 0, 0] ] ∧
    (run c (scenarioA c) s).2.filter Call.isBle =
      [ .bleKeyboardRelease (toU8 c.TOGGLE_KEY),
        .bleKeyboardRelease (toU8 c.MOD_KEY) ] ∧
    (∀ k : Nat, Call.bleKeyboardPress k ∉ (run c (scenarioA c) s).2) ∧
    (0 ≤ c.MOD_KEY → c.MOD_KEY < 256 → ((toU8 c.MOD_KEY : Nat) : Int) = c.MOD_KEY) := by
  rw [(run_scenarioA_usb c hne s hmode hkeys).1]
  refine ⟨rfl, ?_, ?_, ?_, ?_⟩
  · simp [List.filter, Call.isUsb]
  · simp [List.filter, Call.isBle]
  · intro k hmem
    simp at hmem
  · intro h0 h1
    unfold toU8; omega

/-- Witness for C20: the chord with the sample keys from the boot state. -/
theorem chord_leaves_modifier_stuck_on_usb_witness :
    sampleKeys.MOD_KEY ≠ sampleKeys.TOGGLE_KEY ∧
    boot.currentMode = .MODE_USB ∧ boot.modifierKeys = 0 ∧
    (run sampleKeys (scenarioA sampleKeys) boot).2.filter Call.isUsb =
      [ .usbKeyboardReport 1 1 [0x82, 0, 0, 0, 0, 0] ] :=
  ⟨by decide, by decide, by decide,
   (chord_leaves_modifier_stuck_on_usb sampleKeys (by decide) boot (by decide)
      (by decide)).2.1.trans (by decide)⟩

end KBMBridge
